import Mathlib

/-!
# Verification of the copilot-chat-manager indexing and caching engine

Shallow embedding of `src/services/chatStorageService.ts` (the authoritative
module of the repository) together with the data model of
`src/models/chatHistory.ts`.  JavaScript `Map` objects are modelled as
insertion-ordered association lists with the exact `Map.set`/`Map.get`
semantics (replace in place, append when absent).  File-system effects are
modelled by explicit environment records; `Date` values are modelled as
millisecond counts (`Nat`); JSON (de)serialisation of the structured export
payload is modelled at the value level (ISO round-trip of dates is faithful
to the millisecond, so rehydration is the identity on these records).
-/

set_option autoImplicit false

namespace ChatMgr

universe u v

/-! ## JS `Map` model: insertion-ordered association lists -/

/-- `Map.get`: value of the first (unique) entry with the given key. -/
def mapGet {α : Type u} : List (String × α) → String → Option α
  | [], _ => none
  | (k', v') :: rest, k => if k' = k then some v' else mapGet rest k

/-- `Map.set`: replace in place when the key exists, append otherwise. -/
def mapSet {α : Type u} : List (String × α) → String → α → List (String × α)
  | [], k, v => [(k, v)]
  | (k', v') :: rest, k, v =>
      if k' = k then (k, v) :: rest else (k', v') :: mapSet rest k v

/-- `Map.has`. -/
def mapHas {α : Type u} (m : List (String × α)) (k : String) : Bool :=
  (mapGet m k).isSome

@[simp] theorem mapGet_nil {α : Type u} (k : String) :
    mapGet ([] : List (String × α)) k = none := rfl

theorem mapGet_mapSet {α : Type u} (m : List (String × α)) (k k' : String) (v : α) :
    mapGet (mapSet m k v) k' = if k = k' then some v else mapGet m k' := by
  induction m with
  | nil => by_cases h : k = k' <;> simp [mapSet, mapGet, h]
  | cons p rest ih =>
    obtain ⟨pk, pv⟩ := p
    by_cases h1 : pk = k
    · subst h1
      by_cases h2 : pk = k' <;> simp [mapSet, mapGet, h2]
    · by_cases h2 : pk = k'
      · subst h2
        simp [mapSet, mapGet, h1, Ne.symm h1]
      · simp [mapSet, mapGet, h1, h2, ih]

theorem mapHas_mapSet {α : Type u} (m : List (String × α)) (k k' : String) (v : α) :
    mapHas (mapSet m k v) k' = (k = k' || mapHas m k') := by
  by_cases h : k = k' <;> simp [mapHas, mapGet_mapSet, h]

theorem mapSet_fresh {α : Type u} (m : List (String × α)) (k : String) (v : α)
    (h : mapGet m k = none) : mapSet m k v = m ++ [(k, v)] := by
  induction m with
  | nil => rfl
  | cons p rest ih =>
    obtain ⟨pk, pv⟩ := p
    by_cases h1 : pk = k
    · simp [mapGet, h1] at h
    · simp [mapGet, h1] at h
      simp [mapSet, h1, ih h]

theorem mapHas_append {α : Type u} (m m' : List (String × α)) (k : String) :
    mapHas (m ++ m') k = (mapHas m k || mapHas m' k) := by
  induction m with
  | nil => simp [mapHas, mapGet]
  | cons p rest ih =>
    obtain ⟨pk, pv⟩ := p
    by_cases h1 : pk = k <;> simp [mapHas, mapGet, h1] at ih ⊢
    exact ih

/-! ## Data model (`src/models/chatHistory.ts`) -/

/-- `ChatMessage.role : 'user' | 'assistant'`. -/
inductive Role where
  | user
  | assistant
  deriving Repr, DecidableEq

/-- `ChatMessage`. -/
structure ChatMessage where
  id : String
  role : Role
  content : String
  timestamp : Nat
  deriving Repr, DecidableEq

/-- `ChatHistory` (the Session Summary). -/
structure ChatHistory where
  id : String
  workspacePath : String
  workspaceName : String
  createdAt : Nat
  updatedAt : Nat
  firstMessage : String
  lastMessage : String
  messageCount : Nat
  fileSize : Nat
  messages : List ChatMessage
  tags : List String
  attachedProject : Option String
  deriving Repr, DecidableEq

/-- `CachedChatMeta`: one Staleness Cache entry, keyed by file path. -/
structure CachedChatMeta where
  id : String
  filePath : String
  mtime : Nat
  size : Nat
  chat : ChatHistory
  deriving Repr, DecidableEq

/-- `ImportResult`. -/
structure ImportResult where
  success : Bool
  importedCount : Nat
  skippedCount : Nat
  errors : List String
  deriving Repr, DecidableEq

/-- `ChatExport`: the native JSON export envelope. -/
structure ChatExport where
  version : String
  exportedAt : Nat
  sourceExtension : String
  chats : List ChatHistory
  deriving Repr, DecidableEq

/-- The `_scanStats` counter record. -/
structure ScanStats where
  foldersScanned : Nat
  chatsFound : Nat
  errors : Nat
  skippedLarge : Nat
  skippedCached : Nat
  deriving Repr, DecidableEq

def zeroStats : ScanStats := ⟨0, 0, 0, 0, 0⟩

/-- The mutable fields of `ChatStorageService`. -/
structure ServiceState where
  cachedChats : List (String × ChatHistory)
  chatFilePaths : List (String × String)
  fileMetaCache : List (String × CachedChatMeta)
  scanStats : ScanStats
  lastScanTime : Nat
  scanInProgress : Bool
  deriving Repr, DecidableEq

def emptyState : ServiceState :=
  { cachedChats := [], chatFilePaths := [], fileMetaCache := [],
    scanStats := zeroStats, lastScanTime := 0, scanInProgress := false }

/-- `getAllChats`: `Array.from(this.cachedChats.values())`. -/
def getAllChats (st : ServiceState) : List ChatHistory :=
  st.cachedChats.map (·.2)

/-! ## Constants and string helpers -/

def MAX_FILE_SIZE_MB : Nat := 50
def MAX_FILE_SIZE_BYTES : Nat := MAX_FILE_SIZE_MB * 1024 * 1024
def MAX_MESSAGE_PREVIEW_LENGTH : Nat := 200

/-- JS string truthiness of an optional field: present and non-empty. -/
def strTruthy : Option String → Bool
  | some s => s ≠ ""
  | none => false

/-- JS `a || b` on an optional numeric field (`0` is falsy). -/
def numOr (o : Option Nat) (d : Nat) : Nat :=
  match o with
  | some n => if n ≠ 0 then n else d
  | none => d

/-- JS `a || b` on an optional string field (`''` is falsy). -/
def strOr (o : Option String) (d : String) : String :=
  match o with
  | some s => if s ≠ "" then s else d
  | none => d

/-- `truncateText`. -/
def truncateText (text : String) (maxLength : Nat) : String :=
  if text = "" then ""
  else if text.length ≤ maxLength then text
  else ⟨text.data.take maxLength⟩ ++ "..."

/-- The name component after the last path separator (`path.basename`). -/
def lastComponent (p : String) : String :=
  ⟨(p.data.reverse.takeWhile (· ≠ '/')).reverse⟩

/-- `path.dirname` (simplified: `"."` when no separator occurs). -/
def dirOf (p : String) : String :=
  match p.data.reverse.dropWhile (· ≠ '/') with
  | [] => "."
  | _ :: rest => if rest = [] then "/" else ⟨rest.reverse⟩

/-- JS `String.prototype.endsWith`, on the character lists. -/
def strEndsWith (s suffix : String) : Bool :=
  suffix.data.isSuffixOf s.data

/-- `path.basename(p, ext)`: last component with a trailing `ext` removed. -/
def basenameExt (p ext : String) : String :=
  let b := lastComponent p
  if strEndsWith b ext ∧ ext.length < b.length then
    ⟨b.data.take (b.length - ext.length)⟩
  else b

/-! ## Native session files (the on-disk JSON shape) -/

/-- One element of a `response.result.content` parts list. -/
structure ContentPart where
  value : Option String
  text : Option String
  deriving Repr, DecidableEq

/-- `request.response?.result?.content`: either a string or a parts array. -/
inductive ContentValue where
  | str : String → ContentValue
  | parts : List ContentPart → ContentValue
  deriving Repr, DecidableEq

/-- One entry of the `requests` array, with every optional-chain probe the
code performs modelled as an optional field. -/
structure NativeRequest where
  messageText : Option String
  messageTimestamp : Option Nat
  responseValue : Option String
  responseResultValue : Option String
  resultValue : Option String
  responseResultContent : Option ContentValue
  responseCompleteDate : Option Nat
  deriving Repr, DecidableEq

/-- A parsed native session document. -/
structure NativeSession where
  sessionId : Option String
  creationDate : Option Nat
  lastMessageDate : Option Nat
  modelName : Option String
  requests : Option (List NativeRequest)
  deriving Repr, DecidableEq

/-- `part.value || part.text || ''`. -/
def partText (p : ContentPart) : String :=
  match p.value with
  | some v => if v ≠ "" then v else strOr p.text ""
  | none => strOr p.text ""

/-- `extractResponseText`: probe the recognized response shapes in priority
order; the first truthy (non-empty) one wins, arrays are joined with
newlines, and `''` signals that no shape matched. -/
def extractResponseText (r : NativeRequest) : String :=
  if strTruthy r.responseValue then r.responseValue.getD ""
  else if strTruthy r.responseResultValue then r.responseResultValue.getD ""
  else if strTruthy r.resultValue then r.resultValue.getD ""
  else
    match r.responseResultContent with
    | some (ContentValue.parts l) => String.intercalate "\n" (l.map partText)
    | some (ContentValue.str s) => if s ≠ "" then s else ""
    | none => ""

/-! ## Metadata extraction and the scan (`scanAllChatHistories`) -/

/-- `fs.Stats` as used by the scan: size and `mtimeMs`. -/
structure FileStats where
  size : Nat
  mtimeMs : Nat
  deriving Repr, DecidableEq

/-- One file of a `chatSessions` directory listing.  `filePath` is the
result of `path.join(chatSessionsPath, fileName)`. -/
structure FileEntry where
  fileName : String
  filePath : String
  stats : FileStats
  deriving Repr, DecidableEq

/-- One immediate sub-directory of the storage root. -/
structure WorkspaceDirListing where
  name : String
  hasChatSessions : Bool
  files : List FileEntry
  deriving Repr, DecidableEq

/-- The file-system environment a scan runs against. -/
structure ScanEnv where
  storageExists : Bool
  dirs : List WorkspaceDirListing
  parse : String → Option NativeSession
  wsName : String → String
  now : Nat

/-- An entry of `filesToProcess`. -/
structure DiscoveredFile where
  filePath : String
  workspaceId : String
  stats : FileStats
  deriving Repr, DecidableEq

/-- The per-file discovery step: keep `.json` files at or under the size
ceiling, count the oversize ones. -/
def discoverStep (dirName : String) (acc : List DiscoveredFile × Nat) (f : FileEntry) :
    List DiscoveredFile × Nat :=
  if strEndsWith f.fileName ".json" then
    if MAX_FILE_SIZE_BYTES < f.stats.size then (acc.1, acc.2 + 1)
    else (acc.1 ++ [⟨f.filePath, dirName, f.stats⟩], acc.2)
  else acc

/-- The discovery loop body for one workspace directory. -/
def discoverDir (d : WorkspaceDirListing) : List DiscoveredFile × Nat :=
  if d.hasChatSessions then d.files.foldl (discoverStep d.name) ([], 0) else ([], 0)

def discoverAllStep (acc : List DiscoveredFile × Nat × Nat) (d : WorkspaceDirListing) :
    List DiscoveredFile × Nat × Nat :=
  let (fs, large) := discoverDir d
  (acc.1 ++ fs, acc.2.1 + (if d.hasChatSessions then 1 else 0), acc.2.2 + large)

/-- Discovery over all workspace directories: candidate list, folders
scanned, skipped-large count. -/
def discoverAll (dirs : List WorkspaceDirListing) : List DiscoveredFile × Nat × Nat :=
  dirs.foldl discoverAllStep ([], 0, 0)

/-- `parseMetadataFast`: parse outcome, error flag.  The partial-read with
full-read fallback is modelled by the single parse outcome `env.parse`
(`none` = I/O or JSON error on both attempts). -/
def parseMetadataFast (env : ScanEnv) (filePath workspaceId : String) (fileSize : Nat) :
    Option ChatHistory × Bool :=
  match env.parse filePath with
  | none => (none, true)
  | some data =>
    match data.requests with
    | none => (none, false)
    | some reqs =>
      if reqs.length = 0 then (none, false)
      else
        let firstRequest := reqs.head?
        let lastRequest := reqs.getLast?
        let firstMessage := truncateText
          (strOr (firstRequest.bind (·.messageText)) "") MAX_MESSAGE_PREVIEW_LENGTH
        let lastMessage := truncateText
          (strOr (lastRequest.bind (·.messageText)) "") MAX_MESSAGE_PREVIEW_LENGTH
        let modelInfo := strOr data.modelName "Unknown"
        (some
          { id := strOr data.sessionId (basenameExt filePath ".json")
            workspacePath := workspaceId
            workspaceName := env.wsName workspaceId
            createdAt := numOr data.creationDate env.now
            updatedAt := numOr data.lastMessageDate env.now
            firstMessage := firstMessage
            lastMessage := lastMessage
            messageCount := reqs.length * 2
            fileSize := fileSize
            messages := []
            tags := [modelInfo]
            attachedProject := none }, false)

/-- `processFileFast`: serve from the staleness cache on an exact
(size, mtime) match, otherwise extract.  The third component records
whether metadata extraction ran. -/
def processFileFast (env : ScanEnv) (st : ServiceState) (f : DiscoveredFile) :
    ServiceState × Option ChatHistory × Bool :=
  match mapGet st.fileMetaCache f.filePath with
  | some cached =>
    if cached.mtime = f.stats.mtimeMs ∧ cached.size = f.stats.size then
      ({ st with
          scanStats := { st.scanStats with skippedCached := st.scanStats.skippedCached + 1 }
          chatFilePaths := mapSet st.chatFilePaths cached.chat.id f.filePath },
        some cached.chat, false)
    else processMiss env st f
  | none => processMiss env st f
where
  processMiss (env : ScanEnv) (st : ServiceState) (f : DiscoveredFile) :
      ServiceState × Option ChatHistory × Bool :=
    let (chatOpt, errored) := parseMetadataFast env f.filePath f.workspaceId f.stats.size
    let st1 :=
      if errored then
        { st with scanStats := { st.scanStats with errors := st.scanStats.errors + 1 } }
      else st
    match chatOpt with
    | some chat =>
      ({ st1 with
          fileMetaCache := mapSet st1.fileMetaCache f.filePath
            ⟨chat.id, f.filePath, f.stats.mtimeMs, f.stats.size, chat⟩
          chatFilePaths := mapSet st1.chatFilePaths chat.id f.filePath },
        some chat, true)
    | none => (st1, none, true)

def processStep (env : ScanEnv) (acc : ServiceState × List ChatHistory × Nat)
    (f : DiscoveredFile) : ServiceState × List ChatHistory × Nat :=
  let (st', chatOpt, extracted) := processFileFast env acc.1 f
  (st', acc.2.1 ++ chatOpt.toList, acc.2.2 + (if extracted then 1 else 0))

/-- Process every candidate (batched `Promise.all` runs preserve result
order; modelled sequentially).  Returns the produced summaries and the
number of extractions performed. -/
def processAll (env : ScanEnv) (st : ServiceState) (files : List DiscoveredFile) :
    ServiceState × List ChatHistory × Nat :=
  files.foldl (processStep env) (st, [], 0)

/-- `scanAllChatHistories`.  The third component counts file-system
accesses (root check, per-directory checks and listings, per-file stats,
extraction reads); the early-return branches perform none. -/
def scanAllChatHistories (st : ServiceState) (env : ScanEnv) (forceRefresh : Bool) :
    ServiceState × List ChatHistory × Nat :=
  if st.scanInProgress then (st, getAllChats st, 0)
  else if !forceRefresh ∧ env.now - st.lastScanTime < 30000 ∧ st.cachedChats.length > 0 then
    (st, getAllChats st, 0)
  else
    let st0 := { st with scanStats := zeroStats }
    if !env.storageExists then (st0, [], 1)
    else
      let (files, folders, large) := discoverAll env.dirs
      let st1 := { st0 with scanStats :=
        { zeroStats with foldersScanned := folders, skippedLarge := large } }
      let (st2, chats, extractions) := processAll env st1 files
      let st3 := { st2 with
        cachedChats := chats.foldl (fun m c => mapSet m c.id c) []
        scanStats := { st2.scanStats with chatsFound := chats.length }
        lastScanTime := env.now }
      let dirReads := env.dirs.foldl
        (fun n d => n + 1 + (if d.hasChatSessions then 1 + d.files.length else 0)) 0
      (st3, chats, 1 + dirReads + extractions)

/-! ## Full-content loading (`loadFullChat`) -/

/-- Messages contributed by one request entry: a user message when the
request text is truthy, then an assistant message when some response shape
is non-empty.  `ids` is the `generateId` supply, consumed at `k`. -/
def reqMessages (ids : Nat → String) (now : Nat) (data : NativeSession)
    (k : Nat) (r : NativeRequest) : List ChatMessage × Nat :=
  let (userMsgs, k1) : List ChatMessage × Nat :=
    match r.messageText with
    | some t =>
      if t ≠ "" then
        ([⟨ids k, Role.user, t, numOr r.messageTimestamp (numOr data.creationDate now)⟩], k + 1)
      else ([], k)
    | none => ([], k)
  let rt := extractResponseText r
  if rt ≠ "" then
    (userMsgs ++
      [⟨ids k1, Role.assistant, rt, numOr r.responseCompleteDate (numOr data.lastMessageDate now)⟩],
      k1 + 1)
  else (userMsgs, k1)

def buildMessagesAux (ids : Nat → String) (now : Nat) (data : NativeSession) :
    List NativeRequest → Nat → List ChatMessage
  | [], _ => []
  | r :: rs, k =>
    let (ms, k') := reqMessages ids now data k r
    ms ++ buildMessagesAux ids now data rs k'

/-- The ordered message list `loadFullChat` builds from a parsed file. -/
def buildMessages (ids : Nat → String) (now : Nat) (data : NativeSession) : List ChatMessage :=
  buildMessagesAux ids now data (data.requests.getD []) 0

/-- `loadFullChat`: resolve the backing path, parse the whole file, and
overwrite the stored summary's message list and count.  `disk` is the
read-and-parse outcome per path (`none` = I/O or parse error). -/
def loadFullChat (st : ServiceState) (disk : String → Option NativeSession)
    (ids : Nat → String) (now : Nat) (chatId : String) :
    ServiceState × Option ChatHistory :=
  match mapGet st.chatFilePaths chatId with
  | none => (st, mapGet st.cachedChats chatId)
  | some filePath =>
    match disk filePath with
    | none => (st, none)
    | some data =>
      let messages := buildMessages ids now data
      match mapGet st.cachedChats chatId with
      | some chat =>
        let chat' := { chat with messages := messages, messageCount := messages.length }
        ({ st with cachedChats := mapSet st.cachedChats chatId chat' }, some chat')
      | none => (st, none)

/-! ## Import/export reconciler -/

/-- `exportChats` in `'json'` format: wrap the summaries in the versioned
native envelope (the written file is `JSON.stringify` of this value). -/
def exportChatsJson (chats : List ChatHistory) (now : Nat) : ChatExport :=
  { version := "1.0", exportedAt := now, sourceExtension := "copilot-chat-manager",
    chats := chats }

/-- The top-level JSON value `importChats` sniffs, at the structural level:
`chats` when a `chats` array is present, `single` when a truthy `id`
together with a `messages` array is present (collecting the object's fields
as a chat record), and `nat` holding the native-session probe fields. -/
structure ImportPayload where
  chats : Option (List ChatHistory)
  single : Option ChatHistory
  nat : NativeSession

/-- Date rehydration on import (`new Date(isoString)` recovers the stored
millisecond value, so at this level it is the identity). -/
def rehydrateChat (c : ChatHistory) : ChatHistory :=
  { c with
      createdAt := c.createdAt
      updatedAt := c.updatedAt
      messages := c.messages.map (fun m => { m with timestamp := m.timestamp }) }

theorem rehydrateChat_id (c : ChatHistory) : rehydrateChat c = c := by
  simp [rehydrateChat]

/-- The parsed file an export produces, as seen by the import sniffer: it
carries a `chats` array and none of the other probe fields. -/
def payloadOfExport (e : ChatExport) : ImportPayload :=
  { chats := some e.chats, single := none,
    nat := { sessionId := none, creationDate := none, lastMessageDate := none,
             modelName := none, requests := none } }

/-- `convertNativeCopilotChat`. -/
def convertNativeCopilotChat (ids : Nat → String) (now : Nat)
    (data : NativeSession) (filePath : String) : Option ChatHistory :=
  match data.requests with
  | none => none
  | some reqs =>
    if reqs.length = 0 then none
    else
      let messages := buildMessagesAux ids now data reqs 0
      let workspaceName := lastComponent (dirOf (dirOf filePath))
      some
        { id := strOr data.sessionId (basenameExt filePath ".json")
          workspacePath := dirOf (dirOf filePath)
          workspaceName := if workspaceName ≠ "" then workspaceName else "Imported"
          createdAt := numOr data.creationDate now
          updatedAt := numOr data.lastMessageDate now
          firstMessage := truncateText (strOr ((reqs.head?).bind (·.messageText)) "")
            MAX_MESSAGE_PREVIEW_LENGTH
          lastMessage := truncateText (strOr ((reqs.getLast?).bind (·.messageText)) "")
            MAX_MESSAGE_PREVIEW_LENGTH
          messageCount := messages.length
          fileSize := 0
          messages := messages
          tags := [strOr data.modelName "Unknown"]
          attachedProject := none }

/-- One iteration of the multi-entry import loop: duplicate identity is
skipped, otherwise the rehydrated entry is inserted. -/
def importEntry (acc : ServiceState × ImportResult) (chat : ChatHistory) :
    ServiceState × ImportResult :=
  let (st, r) := acc
  if mapHas st.cachedChats chat.id then
    (st, { r with skippedCount := r.skippedCount + 1 })
  else
    ({ st with cachedChats := mapSet st.cachedChats chat.id (rehydrateChat chat) },
      { r with importedCount := r.importedCount + 1 })

def emptyImportResult : ImportResult :=
  { success := false, importedCount := 0, skippedCount := 0, errors := [] }

/-- The native-format branch (shape (c)) of `importChats`; `none` when the
`sessionId`/`requests` sniff fails (the unrecognized-format early return). -/
def importNativeBranch (ids : Nat → String) (now : Nat) (st : ServiceState)
    (data : ImportPayload) (filePath : String) :
    Option (ServiceState × ImportResult) :=
  if strTruthy data.nat.sessionId ∧ (data.nat.requests).isSome then
    some
      (match convertNativeCopilotChat ids now data.nat filePath with
       | some chat =>
         if mapHas st.cachedChats chat.id then
           (st, { emptyImportResult with skippedCount := 1 })
         else
           ({ st with
                cachedChats := mapSet st.cachedChats chat.id chat
                chatFilePaths := mapSet st.chatFilePaths chat.id filePath },
             { emptyImportResult with importedCount := 1 })
       | none =>
         (st, { emptyImportResult with
                  errors := ["Could not parse native Copilot chat format"] }))
  else none

/-- The format-dispatch body of `importChats`; `none` exactly on the
early-return (unrecognized top-level format) path, which skips the final
success assignment. -/
def importBody (ids : Nat → String) (now : Nat) (st : ServiceState)
    (data : ImportPayload) (filePath : String) :
    Option (ServiceState × ImportResult) :=
  match data.chats with
  | some cs => some (cs.foldl importEntry (st, emptyImportResult))
  | none =>
    match data.single with
    | some c =>
      if c.id ≠ "" then
        some
          (if mapHas st.cachedChats c.id then
            (st, { emptyImportResult with skippedCount := 1 })
          else
            ({ st with cachedChats := mapSet st.cachedChats c.id (rehydrateChat c) },
              { emptyImportResult with importedCount := 1 }))
      else importNativeBranch ids now st data filePath
    | none => importNativeBranch ids now st data filePath

/-- `importChats`.  `parsed` is the `JSON.parse` outcome of the file
(`none` = read or parse error, the outer catch). -/
def importChats (st : ServiceState) (ids : Nat → String) (now : Nat)
    (filePath : String) (parsed : Option ImportPayload) : ServiceState × ImportResult :=
  match parsed with
  | none => (st, { emptyImportResult with errors := ["Parse error"] })
  | some data =>
    match importBody ids now st data filePath with
    | some (st', r) =>
      (st', { r with success := r.importedCount > 0 || r.skippedCount > 0 })
    | none =>
      (st, { emptyImportResult with
               errors := ["Invalid chat session data - not a recognized format"] })

/-! ## Deep search -/

/-- String lowering (ASCII abstraction of `toLowerCase` and of the `i`
regex flag). -/
def lowerStr (s : String) : String := ⟨s.data.map Char.toLower⟩

/-- Non-overlapping occurrences of a non-empty pattern, leftmost-first, as
a JS global regex match counts them.  Structural recursion on a fuel
argument bounded by the text length (consumption strictly shrinks the
text, so the fuel never runs out). -/
def countOccFuel (pat : List Char) : Nat → List Char → Nat
  | 0, _ => 0
  | _, [] => 0
  | fuel + 1, c :: rest =>
    if pat.isPrefixOf (c :: rest) then
      1 + countOccFuel pat fuel (rest.drop (pat.length - 1))
    else countOccFuel pat fuel rest

def countOccFrom (pat s : List Char) : Nat := countOccFuel pat s.length s

/-- Case-insensitive literal occurrence count of `pat` in `content`
(regex-special characters are escaped by the code, so the pattern is
literal; the empty pattern matches once per position plus one, as the empty
JS regex does). -/
def countOcc (content pat : String) : Nat :=
  let p := (lowerStr pat).data
  let s := (lowerStr content).data
  if p.isEmpty then s.length + 1 else countOccFrom p s

/-- One `deepSearch` result row. -/
structure DeepSearchResult where
  chat : ChatHistory
  wordCounts : List (String × Nat)
  totalMatches : Nat
  filePath : String
  deriving Repr, DecidableEq

/-- The per-term counting loop of the `any`/`all` modes. -/
def termCounts (terms : List String) (content : String) : List (String × Nat) × Nat :=
  terms.foldl
    (fun acc t => (mapSet acc.1 t (countOcc content t), acc.2 + countOcc content t))
    ([], 0)

inductive SearchMode where
  | any
  | all
  | exact
  deriving Repr, DecidableEq

/-- The body of the `deepSearch` loop for one `chatFilePaths` entry. -/
def searchEntry (disk : String → Option String) (terms : List String)
    (mode : SearchMode) (cachedChats : List (String × ChatHistory))
    (e : String × String) : Option DeepSearchResult :=
  match disk e.2 with
  | none => none
  | some content =>
    let (wc, total) : List (String × Nat) × Nat :=
      match mode with
      | SearchMode.exact =>
        let phrase := String.intercalate " " terms
        let n := countOcc content phrase
        (mapSet [] phrase n, n)
      | _ => termCounts terms content
    let ok : Bool :=
      match mode with
      | SearchMode.any => total > 0
      | SearchMode.all => terms.all (fun t => ((mapGet wc t).getD 0) > 0)
      | SearchMode.exact => total > 0
    if ok then (mapGet cachedChats e.1).map (fun chat => ⟨chat, wc, total, e.2⟩)
    else none

/-- Stable insertion of a result into a descending-by-matches list
(`sort((a, b) => b.totalMatches - a.totalMatches)` is stable). -/
def insertDesc (x : DeepSearchResult) : List DeepSearchResult → List DeepSearchResult
  | [] => [x]
  | y :: ys => if x.totalMatches ≤ y.totalMatches then y :: insertDesc x ys else x :: y :: ys

def sortDesc (l : List DeepSearchResult) : List DeepSearchResult :=
  l.foldl (fun acc x => insertDesc x acc) []

/-- `deepSearch`. -/
def deepSearch (st : ServiceState) (disk : String → Option String)
    (terms : List String) (mode : SearchMode) : List DeepSearchResult :=
  sortDesc (st.chatFilePaths.filterMap (searchEntry disk terms mode st.cachedChats))

/-! ## Topic extraction -/

/-- The fixed stop-word set of `extractTopicsWithCounts`, in source order
(duplicates are harmless for membership). -/
def stopWords : List String := [
  "the", "a", "an", "and", "or", "but", "in", "on", "at", "to", "for", "of", "with", "by",
  "from", "as", "is", "was", "are", "were", "been", "be", "have", "has", "had", "do", "does",
  "did", "will", "would", "could", "should", "may", "might", "must", "shall", "can", "need",
  "dare", "ought", "used", "it", "its", "this", "that", "these", "those", "i", "you", "he",
  "she", "we", "they", "what", "which", "who", "when", "where", "why", "how", "all", "each",
  "every", "both", "few", "more", "most", "other", "some", "such", "no", "nor", "not", "only",
  "own", "same", "so", "than", "too", "very", "just", "also", "now", "here", "there", "then",
  "once", "if", "else", "elif", "true", "false", "null", "undefined", "var", "let", "const",
  "use", "using", "make", "like", "want", "know", "see", "look", "think", "take", "come",
  "go", "say", "said", "get", "got", "put", "tell", "about", "into", "over", "after",
  "before", "between", "under", "again", "further", "while", "above", "below", "function",
  "return", "import", "export", "class", "new", "try", "catch", "throw", "async", "await",
  "public", "private", "static", "void", "string", "number", "boolean", "any", "type",
  "interface", "extends", "implements", "get", "set", "value", "text", "message", "response",
  "request", "data", "error", "result", "code", "file", "path", "name", "id", "key", "item",
  "list", "array", "object", "json", "http", "https", "www", "com", "org", "net", "src",
  "dist", "lib", "bin", "node", "modules", "startcolumn", "endcolumn", "startlinenumber",
  "endlinenumber", "linenumber", "column", "line", "start", "end", "index", "offset",
  "length", "size", "count", "source", "target", "origin", "destination", "input", "output",
  "param", "params", "arg", "args", "option", "options", "config", "setting", "settings",
  "prop", "props", "attr", "attribute", "element", "node", "parent", "child", "children",
  "sibling", "next", "prev", "previous", "first", "last", "current", "default", "base",
  "root", "uri", "url", "href", "ref", "refs", "reference", "references", "link", "links",
  "context", "scope", "state", "store", "cache", "buffer", "stream", "chunk", "content",
  "contents", "body", "header", "headers", "footer", "title", "label", "description", "info",
  "detail", "details", "meta", "metadata", "schema", "model", "view", "controller", "service",
  "provider", "factory", "builder", "handler", "listener", "observer", "callback", "promise",
  "resolve", "reject", "then", "done", "success", "failure", "fail", "failed", "complete",
  "completed", "pending", "loading", "loaded", "ready", "init", "initialize", "setup",
  "create", "update", "delete", "remove", "add", "insert", "append", "prepend", "push", "pop",
  "shift", "unshift", "splice", "slice", "concat", "join", "split", "map", "filter", "reduce",
  "find", "foreach", "sort", "reverse", "includes", "indexof", "keys", "values", "entries",
  "has", "copilot", "vscode", "extension", "workspace", "editor", "document", "selection",
  "range", "position", "character", "word", "token", "symbol", "definition", "declaration",
  "implementation", "usage", "hover", "completion", "diagnostic", "repos", "repo", "git",
  "github", "commit", "branch", "merge", "pull", "push"]

def isLowerAlpha (c : Char) : Bool := 'a' <= c && c <= 'z'

def isDigitCh (c : Char) : Bool := '0' <= c && c <= '9'

/-- Regex word characters (`\\w`). -/
def isWordCh (c : Char) : Bool :=
  isLowerAlpha c || isDigitCh c || c = '_' || ('A' <= c && c <= 'Z')

/-- Maximal word-character runs of the text, collected left to right (the
accumulator holds the current run, reversed). -/
def wordRunsAux : List Char → List Char → List (List Char)
  | [], acc => if acc.isEmpty then [] else [acc.reverse]
  | c :: rest, acc =>
    if isWordCh c then wordRunsAux rest (c :: acc)
    else if acc.isEmpty then wordRunsAux rest [] else acc.reverse :: wordRunsAux rest []

def wordRuns (l : List Char) : List (List Char) := wordRunsAux l []

/-- Whether a maximal run is matched by `\\b[a-z][a-z0-9]{3,}\\b`: the match
must have word boundaries on both sides, so it is the full run, whose
characters must all be matchable. -/
def runIsToken (r : List Char) : Bool :=
  decide (4 <= r.length) &&
    (match r.head? with
     | some c => isLowerAlpha c
     | none => false) &&
    r.all (fun c => isLowerAlpha c || isDigitCh c)

/-- `content.toLowerCase().match(/\\b[a-z][a-z0-9]{3,}\\b/g) || []`. -/
def tokensOf (content : String) : List String :=
  ((wordRuns (lowerStr content).data).filter runIsToken).map (fun r => String.mk r)

/-- `/^[a-z]+\\d+$/`: letters directly followed by trailing digits. -/
def identLike (w : String) : Bool :=
  let letters := w.data.takeWhile isLowerAlpha
  let rest := w.data.dropWhile isLowerAlpha
  !letters.isEmpty && !rest.isEmpty && rest.all isDigitCh

/-- `/^\\d/`. -/
def startsDigit (w : String) : Bool :=
  match w.data.head? with
  | some c => isDigitCh c
  | none => false

/-- The counting loop: surviving tokens tallied in insertion order. -/
def topicCounts (content : String) : List (String × Nat) :=
  (tokensOf content).foldl
    (fun m w =>
      if !stopWords.contains w && decide (4 <= w.length) && !identLike w &&
          !startsDigit w && !w.data.contains '_' then
        mapSet m w ((mapGet m w).getD 0 + 1)
      else m)
    []

def insertDescPair (x : String × Nat) : List (String × Nat) -> List (String × Nat)
  | [] => [x]
  | y :: ys => if x.2 <= y.2 then y :: insertDescPair x ys else x :: y :: ys

/-- Stable descending sort by count (`sort((a, b) => b[1] - a[1])`). -/
def sortDescPairs (l : List (String × Nat)) : List (String × Nat) :=
  l.foldl (fun acc x => insertDescPair x acc) []

/-- `extractTopicsWithCounts`. -/
def extractTopicsWithCounts (content : String) (count : Nat) : List (String × Nat) :=
  (sortDescPairs (topicCounts content)).take count

/-! ## Claim C1: staleness-cache hits skip metadata extraction -/

theorem processMiss_extracted (env : ScanEnv) (st : ServiceState) (f : DiscoveredFile) :
    (processFileFast.processMiss env st f).2.2 = true := by
  unfold processFileFast.processMiss
  rcases parseMetadataFast env f.filePath f.workspaceId f.stats.size with ⟨chatOpt, errored⟩
  cases chatOpt <;> simp

/-- C1: when the recorded (path, size, mtime) of a candidate exactly matches
a stored cache entry, `processFileFast` returns the stored summary, bumps
`skippedCached` by one and does not run metadata extraction; on any
mismatch, or when no entry exists for the path, extraction runs. -/
theorem claim1_cache_hit_skips_extraction (env : ScanEnv) (st : ServiceState)
    (f : DiscoveredFile) :
    (∀ c, mapGet st.fileMetaCache f.filePath = some c →
      c.mtime = f.stats.mtimeMs → c.size = f.stats.size →
      processFileFast env st f =
        ({ st with
            scanStats :=
              { st.scanStats with skippedCached := st.scanStats.skippedCached + 1 }
            chatFilePaths := mapSet st.chatFilePaths c.chat.id f.filePath },
          some c.chat, false)) ∧
    ((¬ ∃ c, mapGet st.fileMetaCache f.filePath = some c ∧
        c.mtime = f.stats.mtimeMs ∧ c.size = f.stats.size) →
      (processFileFast env st f).2.2 = true) := by
  constructor
  · intro c hc hm hs
    simp [processFileFast, hc, hm, hs]
  · intro hmiss
    cases hc : mapGet st.fileMetaCache f.filePath with
    | none => simp [processFileFast, hc, processMiss_extracted]
    | some c =>
      have : ¬(c.mtime = f.stats.mtimeMs ∧ c.size = f.stats.size) := by
        intro ⟨h1, h2⟩
        exact hmiss ⟨c, hc, h1, h2⟩
      simp [processFileFast, hc, this, processMiss_extracted]

def c1Chat : ChatHistory :=
  { id := "c1", workspacePath := "w", workspaceName := "W", createdAt := 1, updatedAt := 2,
    firstMessage := "", lastMessage := "", messageCount := 2, fileSize := 5,
    messages := [], tags := ["Unknown"], attachedProject := none }

def c1Meta : CachedChatMeta := ⟨"c1", "p/a.json", 10, 5, c1Chat⟩

def c1St : ServiceState := { emptyState with fileMetaCache := [("p/a.json", c1Meta)] }

def c1Env : ScanEnv :=
  { storageExists := true, dirs := [], parse := fun _ => none, wsName := fun s => s, now := 0 }

def c1File : DiscoveredFile := ⟨"p/a.json", "w", ⟨5, 10⟩⟩

theorem claim1_witness :
    (processFileFast c1Env c1St c1File).2.1 = some c1Chat ∧
    (processFileFast c1Env c1St c1File).2.2 = false ∧
    (processFileFast c1Env c1St c1File).1.scanStats.skippedCached =
      c1St.scanStats.skippedCached + 1 := by
  have h := (claim1_cache_hit_skips_extraction c1Env c1St c1File).1 c1Meta rfl rfl rfl
  rw [h]
  exact ⟨rfl, rfl, rfl⟩

/-! ## Claim C8: estimated then exact message counts -/

/-- C8: metadata extraction records `2 × (number of request entries)` as the
message count (with an empty message list), and a successful full-content
load overwrites the stored summary's message list with the emitted messages
and its message count with their exact number. -/
theorem claim8_two_tier_message_count :
    (∀ (env : ScanEnv) (fp ws : String) (size : Nat) (data : NativeSession)
        (reqs : List NativeRequest),
      env.parse fp = some data → data.requests = some reqs → reqs ≠ [] →
      (parseMetadataFast env fp ws size).1.map ChatHistory.messageCount =
        some (reqs.length * 2) ∧
      (parseMetadataFast env fp ws size).1.map ChatHistory.messages = some []) ∧
    (∀ (st : ServiceState) (disk : String → Option NativeSession)
        (ids : Nat → String) (now : Nat) (cid fp : String)
        (data : NativeSession) (chat : ChatHistory),
      mapGet st.chatFilePaths cid = some fp → disk fp = some data →
      mapGet st.cachedChats cid = some chat →
      loadFullChat st disk ids now cid =
        ({ st with
             cachedChats := mapSet st.cachedChats cid
                              { chat with
                                messages := buildMessages ids now data
                                messageCount := (buildMessages ids now data).length } },
          some { chat with
                 messages := buildMessages ids now data
                 messageCount := (buildMessages ids now data).length })) := by
  constructor
  · intro env fp ws size data reqs hparse hreqs hne
    have hlen : ¬ reqs.length = 0 := by simpa [List.length_eq_zero] using hne
    constructor <;> simp [parseMetadataFast, hparse, hreqs, hlen]
  · intro st disk ids now cid fp data chat hpath hdisk hchat
    simp [loadFullChat, hpath, hdisk, hchat]

def c8Req : NativeRequest :=
  { messageText := some "hi", messageTimestamp := some 3, responseValue := some "yo",
    responseResultValue := none, resultValue := none, responseResultContent := none,
    responseCompleteDate := some 4 }

def c8Sess : NativeSession :=
  { sessionId := some "s8", creationDate := some 1, lastMessageDate := some 2,
    modelName := some "m", requests := some [c8Req] }

def c8Env : ScanEnv :=
  { storageExists := true, dirs := [], parse := fun p => if p = "p8" then some c8Sess else none,
    wsName := fun s => s, now := 9 }

def c8St : ServiceState :=
  { emptyState with
      cachedChats := [("s8", c1Chat)]
      chatFilePaths := [("s8", "p8")] }

theorem claim8_witness :
    (parseMetadataFast c8Env "p8" "w" 5).1.map ChatHistory.messageCount = some 2 ∧
    (loadFullChat c8St c8Env.parse (fun n => toString n) 9 "s8").2 =
      some { c1Chat with
              messages := buildMessages (fun n => toString n) 9 c8Sess
              messageCount := (buildMessages (fun n => toString n) 9 c8Sess).length } := by
  constructor
  · have h := (claim8_two_tier_message_count).1 c8Env "p8" "w" 5 c8Sess [c8Req] rfl rfl
      (by simp)
    exact h.1
  · have h := (claim8_two_tier_message_count).2 c8St c8Env.parse (fun n => toString n) 9
      "s8" "p8" c8Sess c1Chat rfl rfl rfl
    rw [h]

/-! ## Claim C7: turns with no recognized response shape -/

/-- C7: when no recognized response shape yields text for a request entry
(`extractResponseText` returns the empty string), the turn contributes a
single user message when the request text is present and non-empty, no
message otherwise, and never an assistant message; and a full-content load
over a parseable file completes without error. -/
theorem claim7_missing_response_user_only :
    (∀ (ids : Nat → String) (now : Nat) (data : NativeSession) (k : Nat)
        (r : NativeRequest),
      extractResponseText r = "" →
      (∀ m ∈ (reqMessages ids now data k r).1, m.role = Role.user) ∧
      (strTruthy r.messageText = true →
        ∃ t, r.messageText = some t ∧
          (reqMessages ids now data k r).1 =
            [⟨ids k, Role.user, t, numOr r.messageTimestamp (numOr data.creationDate now)⟩]) ∧
      (strTruthy r.messageText = false → (reqMessages ids now data k r).1 = [])) ∧
    (∀ (st : ServiceState) (disk : String → Option NativeSession)
        (ids : Nat → String) (now : Nat) (cid fp : String)
        (data : NativeSession) (chat : ChatHistory),
      mapGet st.chatFilePaths cid = some fp → disk fp = some data →
      mapGet st.cachedChats cid = some chat →
      (loadFullChat st disk ids now cid).2.isSome = true) := by
  constructor
  · intro ids now data k r hresp
    cases ht : r.messageText with
    | none =>
      refine ⟨?_, ?_, ?_⟩ <;> simp [reqMessages, ht, hresp, strTruthy]
    | some t =>
      by_cases he : t = ""
      · subst he
        refine ⟨?_, ?_, ?_⟩ <;> simp [reqMessages, ht, hresp, strTruthy]
      · refine ⟨?_, ?_, ?_⟩ <;> simp [reqMessages, ht, hresp, strTruthy, he]
  · intro st disk ids now cid fp data chat hpath hdisk hchat
    simp [loadFullChat, hpath, hdisk, hchat]

def c7Req : NativeRequest :=
  { messageText := some "how", messageTimestamp := none, responseValue := some "",
    responseResultValue := none, resultValue := none,
    responseResultContent := some (ContentValue.parts []), responseCompleteDate := none }

theorem claim7_witness :
    (∀ m ∈ (reqMessages (fun n => toString n) 9 c8Sess 0 c7Req).1, m.role = Role.user) ∧
    (reqMessages (fun n => toString n) 9 c8Sess 0 c7Req).1 =
      [⟨"0", Role.user, "how", 1⟩] := by
  obtain ⟨h1, h2, _⟩ :=
    (claim7_missing_response_user_only).1 (fun n => toString n) 9 c8Sess 0 c7Req rfl
  obtain ⟨t, ht, hmsg⟩ := h2 rfl
  refine ⟨h1, ?_⟩
  cases ht
  rw [hmsg]
  rfl

/-! ## Claim C10: the import success flag -/

/-- C10: an import reports success exactly when at least one entry was
imported or skipped; a recognized multi-entry payload with an empty entry
array yields failure with no errors, and an unrecognized top-level format
always yields failure. -/
theorem claim10_import_success_flag (st : ServiceState) (ids : Nat → String) (now : Nat)
    (fp : String) (parsed : Option ImportPayload) :
    ((importChats st ids now fp parsed).2.success = true ↔
      0 < (importChats st ids now fp parsed).2.importedCount +
          (importChats st ids now fp parsed).2.skippedCount) ∧
    (∀ data, parsed = some data → data.chats = some [] →
      (importChats st ids now fp parsed).2 =
        { success := false, importedCount := 0, skippedCount := 0, errors := [] }) ∧
    (∀ data, parsed = some data → data.chats = none →
      (∀ c, data.single = some c → c.id = "") →
      ¬(strTruthy data.nat.sessionId = true ∧ (data.nat.requests).isSome = true) →
      (importChats st ids now fp parsed).2.success = false) := by
  refine ⟨?_, ?_, ?_⟩
  · cases parsed with
    | none => simp [importChats, emptyImportResult]
    | some data =>
      cases hb : importBody ids now st data fp with
      | none => simp [importChats, hb, emptyImportResult]
      | some p =>
        obtain ⟨st', r⟩ := p
        simp only [importChats, hb]
        constructor
        · intro h
          simp at h
          omega
        · intro h
          simp
          omega
  · intro data hp hchats
    subst hp
    simp [importChats, importBody, hchats, emptyImportResult]
  · intro data hp hchats hsingle hnat
    subst hp
    have hbody : importBody ids now st data fp = none := by
      unfold importBody
      rw [hchats]
      cases hs : data.single with
      | none => simp [importNativeBranch, hnat]
      | some c =>
        have := hsingle c hs
        simp [this, importNativeBranch, hnat]
    simp [importChats, hbody, emptyImportResult]

def c10Payload : ImportPayload :=
  { chats := some [], single := none,
    nat := { sessionId := none, creationDate := none, lastMessageDate := none,
             modelName := none, requests := none } }

theorem claim10_witness :
    (importChats emptyState (fun n => toString n) 0 "f" (some c10Payload)).2 =
      { success := false, importedCount := 0, skippedCount := 0, errors := [] } := by
  exact (claim10_import_success_flag emptyState (fun n => toString n) 0 "f"
    (some c10Payload)).2.1 c10Payload rfl rfl

/-! ## Claims C5 and C4: import idempotence and export/import round-trip -/

theorem importEntry_has_mono (c : ChatHistory) (acc : ServiceState × ImportResult)
    (k : String) (h : mapHas acc.1.cachedChats k = true) :
    mapHas (importEntry acc c).1.cachedChats k = true := by
  obtain ⟨st, r⟩ := acc
  unfold importEntry
  by_cases hc : mapHas st.cachedChats c.id <;> simp [hc, mapHas_mapSet] at h ⊢ <;>
    simp [h]

theorem importFold_has_mono (cs : List ChatHistory) (acc : ServiceState × ImportResult)
    (k : String) (h : mapHas acc.1.cachedChats k = true) :
    mapHas (cs.foldl importEntry acc).1.cachedChats k = true := by
  induction cs generalizing acc with
  | nil => simpa using h
  | cons c rest ih => exact ih _ (importEntry_has_mono c acc k h)

theorem importFold_has (cs : List ChatHistory) (acc : ServiceState × ImportResult) :
    ∀ c ∈ cs, mapHas (cs.foldl importEntry acc).1.cachedChats c.id = true := by
  induction cs generalizing acc with
  | nil => intro c hc; cases hc
  | cons c0 rest ih =>
    intro c hc
    rcases List.mem_cons.mp hc with hc | hc
    · subst hc
      refine importFold_has_mono rest _ c.id ?_
      obtain ⟨st, r⟩ := acc
      unfold importEntry
      by_cases h0 : mapHas st.cachedChats c.id <;> simp [h0, mapHas_mapSet]
    · exact ih _ c hc

theorem importFold_all_present (cs : List ChatHistory) (st : ServiceState)
    (r : ImportResult) (h : ∀ c ∈ cs, mapHas st.cachedChats c.id = true) :
    cs.foldl importEntry (st, r) =
      (st, { r with skippedCount := r.skippedCount + cs.length }) := by
  induction cs generalizing r with
  | nil => simp
  | cons c0 rest ih =>
    have h0 : mapHas st.cachedChats c0.id = true := h c0 (by simp)
    have hrest : ∀ c ∈ rest, mapHas st.cachedChats c.id = true := by
      intro c hc; exact h c (by simp [hc])
    simp only [List.foldl_cons, importEntry, h0, if_pos]
    rw [ih _ hrest]
    simp only [List.length_cons, Prod.mk.injEq, true_and]
    congr 1
    omega

/-- C5: importing the same export payload a second time changes nothing:
every entry is reported skipped, none imported, and the Index state is
unchanged. -/
theorem claim5_import_idempotent (st0 : ServiceState) (chats : List ChatHistory)
    (exportNow now : Nat) (ids : Nat → String) (fp : String) :
    importChats
        (importChats st0 ids now fp
          (some (payloadOfExport (exportChatsJson chats exportNow)))).1
        ids now fp (some (payloadOfExport (exportChatsJson chats exportNow))) =
      ((importChats st0 ids now fp
          (some (payloadOfExport (exportChatsJson chats exportNow)))).1,
        { success := decide (0 < chats.length), importedCount := 0,
          skippedCount := chats.length, errors := [] }) := by
  have hpayload : (payloadOfExport (exportChatsJson chats exportNow)).chats = some chats := rfl
  have hpresent : ∀ c ∈ chats,
      mapHas (importChats st0 ids now fp
        (some (payloadOfExport (exportChatsJson chats exportNow)))).1.cachedChats c.id
        = true := by
    intro c hc
    have h1 : (importChats st0 ids now fp
        (some (payloadOfExport (exportChatsJson chats exportNow)))).1 =
        (chats.foldl importEntry (st0, emptyImportResult)).1 := by
      simp only [importChats, importBody, hpayload]
    rw [h1]
    exact importFold_has chats _ c hc
  have hsecond := importFold_all_present chats
    (importChats st0 ids now fp
      (some (payloadOfExport (exportChatsJson chats exportNow)))).1
    emptyImportResult hpresent
  simp only [importChats, importBody, hpayload] at hsecond ⊢
  rw [hsecond]
  simp only [Prod.mk.injEq, true_and, emptyImportResult]
  cases chats with
  | nil => simp
  | cons c cs => simp

theorem importFold_all_fresh (cs : List ChatHistory) (st : ServiceState) (r : ImportResult)
    (hfresh : ∀ c ∈ cs, mapHas st.cachedChats c.id = false)
    (hnodup : (cs.map (·.id)).Nodup) :
    cs.foldl importEntry (st, r) =
      ({ st with cachedChats := st.cachedChats ++ cs.map (fun c => (c.id, c)) },
        { r with importedCount := r.importedCount + cs.length }) := by
  induction cs generalizing st r with
  | nil => simp
  | cons c0 rest ih =>
    have h0 : mapHas st.cachedChats c0.id = false := hfresh c0 (by simp)
    have hset : mapSet st.cachedChats c0.id (rehydrateChat c0) =
        st.cachedChats ++ [(c0.id, c0)] := by
      rw [rehydrateChat_id, mapSet_fresh]
      simpa [mapHas] using h0
    have hid : ∀ c ∈ rest, c.id ≠ c0.id := by
      intro c hc he
      simp only [List.map_cons, List.nodup_cons] at hnodup
      exact absurd (he ▸ (List.mem_map_of_mem (·.id) hc)) hnodup.1
    have hfresh2 : ∀ c ∈ rest,
        mapHas (st.cachedChats ++ [(c0.id, c0)]) c.id = false := by
      intro c hc
      have hone : mapHas [(c0.id, c0)] c.id = false := by
        simp [mapHas, mapGet, Ne.symm (hid c hc)]
      rw [mapHas_append, hfresh c (by simp [hc]), hone]
      rfl
    have hnodup2 : (rest.map (·.id)).Nodup := by
      simp only [List.map_cons, List.nodup_cons] at hnodup
      exact hnodup.2
    have hstep : importEntry (st, r) c0 =
        ({ st with cachedChats := st.cachedChats ++ [(c0.id, c0)] },
          { r with importedCount := r.importedCount + 1 }) := by
      simp [importEntry, h0, hset]
    rw [List.foldl_cons, hstep, ih _ _ hfresh2 hnodup2]
    simp only [List.map_cons, List.length_cons, Prod.mk.injEq]
    constructor
    · simp [List.append_assoc]
    · congr 1
      omega

theorem map_snd_pair_id (l : List ChatHistory) :
    l.map ((fun x : String × ChatHistory => x.2) ∘ fun c => (c.id, c)) = l := by
  induction l with
  | nil => rfl
  | cons a t ih => simp only [List.map_cons, Function.comp_apply, ih]

/-- C4: exporting summaries (with messages) in the native JSON envelope and
importing the payload into an empty Index reproduces the sessions exactly:
same number, same per-session message lists (hence counts and ordering). -/
theorem claim4_export_import_roundtrip (chats : List ChatHistory)
    (exportNow now : Nat) (ids : Nat → String) (fp : String)
    (hids : (chats.map (·.id)).Nodup) :
    getAllChats
        (importChats emptyState ids now fp
          (some (payloadOfExport (exportChatsJson chats exportNow)))).1 = chats ∧
    (importChats emptyState ids now fp
        (some (payloadOfExport (exportChatsJson chats exportNow)))).2.importedCount =
      chats.length := by
  have hpayload : (payloadOfExport (exportChatsJson chats exportNow)).chats = some chats := rfl
  have hfresh : ∀ c ∈ chats, mapHas emptyState.cachedChats c.id = false := by
    intro c _; rfl
  have hfold := importFold_all_fresh chats emptyState emptyImportResult hfresh hids
  have hmapid := map_snd_pair_id chats
  constructor <;> simp only [importChats, importBody, hpayload, hfold] <;>
    simp [getAllChats, emptyState, emptyImportResult, hmapid]

def c4Chats : List ChatHistory :=
  [{ c1Chat with id := "a" }, { c1Chat with id := "b" }]

theorem claim4_witness :
    getAllChats
        (importChats emptyState (fun n => toString n) 0 "f"
          (some (payloadOfExport (exportChatsJson c4Chats 7)))).1 = c4Chats ∧
    (importChats emptyState (fun n => toString n) 0 "f"
        (some (payloadOfExport (exportChatsJson c4Chats 7)))).2.importedCount = 2 := by
  exact claim4_export_import_roundtrip c4Chats 7 0 (fun n => toString n) "f" (by decide)

/-! ## Claim C6: topic extraction on the two spec test texts -/

def topicText1 : String := "The function returns a promise. The promise resolves a value."

def topicText2 : String := "shader shader xbox xbox xbox"

/-- C6 counterexample: the claim asserts that topic extraction over the
first test text yields none of "function", "promise", "returns",
"resolves", "value" (all allegedly in the stop set); in fact "returns" and
"resolves" are not in the stop set, and ("returns", 1) is produced. -/
theorem claim6_counterexample :
    ("returns", 1) ∈ extractTopicsWithCounts topicText1 3 ∧
    "returns" ∉ stopWords ∧ "resolves" ∉ stopWords := by decide

/-- C6 amended: over the first test text, extraction yields none of
"function", "promise", "value" (these are in the stop set), but does yield
"returns" and "resolves" (not in the stop set), each with count 1; over
"shader shader xbox xbox xbox" it yields exactly
[("xbox", 3), ("shader", 2)]. -/
theorem claim6_amended :
    extractTopicsWithCounts topicText1 3 = [("returns", 1), ("resolves", 1)] ∧
    "function" ∈ stopWords ∧ "promise" ∈ stopWords ∧ "value" ∈ stopWords ∧
    extractTopicsWithCounts topicText2 3 = [("xbox", 3), ("shader", 2)] := by decide

/-! ## Claim C9: the freshness-window short-circuit -/

def c9EnvEmpty : ScanEnv :=
  { storageExists := true, dirs := [], parse := fun _ => none,
    wsName := fun s => s, now := 95 }

def c9Req : NativeRequest :=
  { messageText := some "hello", messageTimestamp := none, responseValue := some "resp",
    responseResultValue := none, resultValue := none, responseResultContent := none,
    responseCompleteDate := none }

def c9Sess : NativeSession :=
  { sessionId := some "s1", creationDate := some 1, lastMessageDate := some 2,
    modelName := some "gpt", requests := some [c9Req] }

def c9Env : ScanEnv :=
  { storageExists := true,
    dirs := [⟨"w1", true, [⟨"a.json", "root/w1/chatSessions/a.json", ⟨10, 7⟩⟩]⟩],
    parse := fun p => if p = "root/w1/chatSessions/a.json" then some c9Sess else none,
    wsName := fun _ => "W1", now := 100 }

/-- The state left by a completed scan (at time 95) that found no chats. -/
def c9St : ServiceState := (scanAllChatHistories emptyState c9EnvEmpty true).1

/-- C9 counterexample: after a completed scan, a second request 5 ms later
(well within the 30 s window, no force-refresh) nevertheless re-reads the
file system and returns a different snapshot, because the short-circuit
additionally requires a non-empty in-memory index
(`this.cachedChats.size > 0`). -/
theorem claim9_counterexample :
    c9Env.now - c9St.lastScanTime < 30000 ∧
    c9St.scanInProgress = false ∧
    (scanAllChatHistories c9St c9Env false).2.2 ≠ 0 ∧
    (scanAllChatHistories c9St c9Env false).2.1 ≠ getAllChats c9St := by decide

/-- C9 amended: when additionally the index holds at least one session, a
scan request within the 30-second freshness window and without
force-refresh returns the current snapshot unchanged and performs no
file-system reads. -/
theorem claim9_amended_fresh_shortcircuit (st : ServiceState) (env : ScanEnv)
    (hage : env.now - st.lastScanTime < 30000)
    (hne : st.cachedChats ≠ []) :
    scanAllChatHistories st env false = (st, getAllChats st, 0) := by
  unfold scanAllChatHistories
  by_cases hp : st.scanInProgress
  · simp [hp]
  · have hlen : st.cachedChats.length > 0 := List.length_pos.mpr hne
    simp [hp, hage, hlen]

def c9WSt : ServiceState :=
  { emptyState with cachedChats := [("a", c1Chat)], lastScanTime := 90 }

theorem claim9_witness :
    scanAllChatHistories c9WSt c9Env false = (c9WSt, getAllChats c9WSt, 0) :=
  claim9_amended_fresh_shortcircuit c9WSt c9Env (by decide) (by decide)

/-! ## Claim C2: the 50 MiB ceiling -/

/-- The files the scan actually stats: every entry of every listed
`chatSessions` directory. -/
def scannedFiles : List WorkspaceDirListing → List FileEntry
  | [] => []
  | d :: rest => (if d.hasChatSessions then d.files else []) ++ scannedFiles rest

/-- A `.json` entry above the size ceiling. -/
def isJsonOversize (f : FileEntry) : Bool :=
  strEndsWith f.fileName ".json" && decide (MAX_FILE_SIZE_BYTES < f.stats.size)

/-- A `.json` entry at or under the size ceiling (kept for processing). -/
def keepEntry (f : FileEntry) : Bool :=
  strEndsWith f.fileName ".json" && decide (f.stats.size ≤ MAX_FILE_SIZE_BYTES)

/-- The oversize `.json` entries a scan encounters. -/
def oversizeOf (dirs : List WorkspaceDirListing) : List FileEntry :=
  (scannedFiles dirs).filter isJsonOversize

/-- The kept candidates, per directory. -/
def discoveredOf : List WorkspaceDirListing → List DiscoveredFile
  | [] => []
  | d :: rest =>
    (if d.hasChatSessions then
      (d.files.filter keepEntry).map (fun f => ⟨f.filePath, d.name, f.stats⟩)
    else []) ++ discoveredOf rest

def foldersOf : List WorkspaceDirListing → Nat
  | [] => 0
  | d :: rest => (if d.hasChatSessions then 1 else 0) + foldersOf rest

theorem discoverFold (name : String) (files : List FileEntry)
    (acc : List DiscoveredFile × Nat) :
    files.foldl (discoverStep name) acc =
      (acc.1 ++ (files.filter keepEntry).map (fun f => ⟨f.filePath, name, f.stats⟩),
        acc.2 + (files.filter isJsonOversize).length) := by
  induction files generalizing acc with
  | nil => simp
  | cons f rest ih =>
    by_cases hj : strEndsWith f.fileName ".json"
    · by_cases hs : MAX_FILE_SIZE_BYTES < f.stats.size
      · have hk : keepEntry f = false := by
          simp only [keepEntry, hj, Bool.true_and, decide_eq_false_iff_not]
          omega
        have ho : isJsonOversize f = true := by simp [isJsonOversize, hj, hs]
        have hstep : discoverStep name acc f = (acc.1, acc.2 + 1) := by
          simp [discoverStep, hj, hs]
        rw [List.foldl_cons, hstep, ih]
        simp only [List.filter_cons, hk, ho, if_true, Bool.false_eq_true, if_false,
          List.length_cons, Prod.mk.injEq, true_and]
        omega
      · have hk : keepEntry f = true := by
          simp only [keepEntry, hj, Bool.true_and, decide_eq_true_eq]
          omega
        have ho : isJsonOversize f = false := by simp [isJsonOversize, hj, hs]
        have hstep : discoverStep name acc f =
            (acc.1 ++ [⟨f.filePath, name, f.stats⟩], acc.2) := by
          simp [discoverStep, hj, hs]
        rw [List.foldl_cons, hstep, ih]
        simp [List.filter_cons, hk, ho, List.append_assoc]
    · have hk : keepEntry f = false := by simp [keepEntry, hj]
      have ho : isJsonOversize f = false := by simp [isJsonOversize, hj]
      have hstep : discoverStep name acc f = acc := by simp [discoverStep, hj]
      rw [List.foldl_cons, hstep, ih]
      simp [List.filter_cons, hk, ho]

theorem discoverDir_spec (d : WorkspaceDirListing) :
    discoverDir d =
      ((if d.hasChatSessions then
          (d.files.filter keepEntry).map (fun f => ⟨f.filePath, d.name, f.stats⟩)
        else []),
        if d.hasChatSessions then (d.files.filter isJsonOversize).length else 0) := by
  by_cases h : d.hasChatSessions <;> simp [discoverDir, h, discoverFold]

theorem discoverAllFold (dirs : List WorkspaceDirListing)
    (acc : List DiscoveredFile × Nat × Nat) :
    dirs.foldl discoverAllStep acc =
      (acc.1 ++ discoveredOf dirs, acc.2.1 + foldersOf dirs,
        acc.2.2 + (oversizeOf dirs).length) := by
  induction dirs generalizing acc with
  | nil => simp [discoveredOf, foldersOf, oversizeOf, scannedFiles]
  | cons d rest ih =>
    have hstep : discoverAllStep acc d =
        (acc.1 ++ (if d.hasChatSessions then
            (d.files.filter keepEntry).map (fun f => ⟨f.filePath, d.name, f.stats⟩)
          else []),
          acc.2.1 + (if d.hasChatSessions then 1 else 0),
          acc.2.2 + (if d.hasChatSessions then (d.files.filter isJsonOversize).length
            else 0)) := by
      simp [discoverAllStep, discoverDir_spec]
    rw [List.foldl_cons, hstep, ih]
    have hover : oversizeOf (d :: rest) =
        (if d.hasChatSessions then d.files.filter isJsonOversize else []) ++
          oversizeOf rest := by
      by_cases h : d.hasChatSessions <;>
        simp [oversizeOf, scannedFiles, h, List.filter_append]
    simp only [discoveredOf, foldersOf, hover, List.length_append, Prod.mk.injEq,
      List.append_assoc, true_and]
    constructor
    · omega
    · by_cases h : d.hasChatSessions <;> simp [h] <;> omega

theorem discoverAll_spec (dirs : List WorkspaceDirListing) :
    discoverAll dirs = (discoveredOf dirs, foldersOf dirs, (oversizeOf dirs).length) := by
  have h := discoverAllFold dirs ([], 0, 0)
  simpa [discoverAll] using h

theorem processMiss_skippedLarge (env : ScanEnv) (st : ServiceState) (f : DiscoveredFile) :
    (processFileFast.processMiss env st f).1.scanStats.skippedLarge =
      st.scanStats.skippedLarge := by
  unfold processFileFast.processMiss
  rcases hp : parseMetadataFast env f.filePath f.workspaceId f.stats.size with ⟨chatOpt, errored⟩
  simp only [hp]
  cases chatOpt <;> cases errored <;> simp

theorem processFileFast_skippedLarge (env : ScanEnv) (st : ServiceState)
    (f : DiscoveredFile) :
    (processFileFast env st f).1.scanStats.skippedLarge = st.scanStats.skippedLarge := by
  cases hc : mapGet st.fileMetaCache f.filePath with
  | none => simp only [processFileFast, hc]; exact processMiss_skippedLarge env st f
  | some c =>
    by_cases h : c.mtime = f.stats.mtimeMs ∧ c.size = f.stats.size
    · simp [processFileFast, hc, h]
    · simp only [processFileFast, hc, if_neg h]
      exact processMiss_skippedLarge env st f

theorem processMiss_paths (env : ScanEnv) (st : ServiceState) (f : DiscoveredFile)
    (id p : String)
    (h : mapGet (processFileFast.processMiss env st f).1.chatFilePaths id = some p) :
    mapGet st.chatFilePaths id = some p ∨ p = f.filePath := by
  unfold processFileFast.processMiss at h
  rcases hp : parseMetadataFast env f.filePath f.workspaceId f.stats.size with ⟨chatOpt, errored⟩
  simp only [hp] at h
  cases chatOpt with
  | none => cases errored <;> exact Or.inl h
  | some chat =>
    cases errored <;>
    · simp only [mapGet_mapSet] at h
      split at h
      · right; exact (Option.some.inj h).symm
      · left; exact h

theorem processFileFast_paths (env : ScanEnv) (st : ServiceState) (f : DiscoveredFile)
    (id p : String)
    (h : mapGet (processFileFast env st f).1.chatFilePaths id = some p) :
    mapGet st.chatFilePaths id = some p ∨ p = f.filePath := by
  rcases hc : mapGet st.fileMetaCache f.filePath with _ | c
  · simp only [processFileFast, hc] at h
    exact processMiss_paths env st f id p h
  · by_cases hm : c.mtime = f.stats.mtimeMs ∧ c.size = f.stats.size
    · simp only [processFileFast, hc, if_pos hm, mapGet_mapSet] at h
      split at h
      · right; exact (Option.some.inj h).symm
      · left; exact h
    · simp only [processFileFast, hc, if_neg hm] at h
      exact processMiss_paths env st f id p h

theorem processFold_skippedLarge (env : ScanEnv) (files : List DiscoveredFile)
    (acc : ServiceState × List ChatHistory × Nat) :
    ((files.foldl (processStep env) acc).1.scanStats.skippedLarge =
      acc.1.scanStats.skippedLarge) := by
  induction files generalizing acc with
  | nil => rfl
  | cons f rest ih =>
    rw [List.foldl_cons, ih]
    rcases hq : processFileFast env acc.1 f with ⟨st1, chatOpt, extracted⟩
    simp only [processStep, hq]
    have := processFileFast_skippedLarge env acc.1 f
    rw [hq] at this
    exact this

theorem processFold_paths (env : ScanEnv) (files : List DiscoveredFile)
    (acc : ServiceState × List ChatHistory × Nat) (id p : String)
    (h : mapGet ((files.foldl (processStep env) acc).1.chatFilePaths) id = some p) :
    mapGet acc.1.chatFilePaths id = some p ∨ ∃ f ∈ files, p = f.filePath := by
  induction files generalizing acc with
  | nil => exact Or.inl h
  | cons f rest ih =>
    rw [List.foldl_cons] at h
    rcases ih _ h with h1 | ⟨g, hg, hp⟩
    · rcases hq : processFileFast env acc.1 f with ⟨st1, chatOpt, extracted⟩
      simp only [processStep, hq] at h1
      have := processFileFast_paths env acc.1 f id p
      rw [hq] at this
      rcases this h1 with h2 | h2
      · exact Or.inl h2
      · exact Or.inr ⟨f, by simp, h2⟩
    · exact Or.inr ⟨g, by simp [hg], hp⟩



def scanStatsAfterDiscovery (st : ServiceState) (env : ScanEnv) : ServiceState :=
  { st with scanStats :=
      { zeroStats with
          foldersScanned := foldersOf env.dirs
          skippedLarge := (oversizeOf env.dirs).length } }

theorem scan_force_body (st : ServiceState) (env : ScanEnv)
    (hprog : st.scanInProgress = false) (hex : env.storageExists = true) :
    scanAllChatHistories st env true =
      (let res := processAll env (scanStatsAfterDiscovery st env) (discoveredOf env.dirs)
       ({ res.1 with
           cachedChats := res.2.1.foldl (fun m c => mapSet m c.id c) []
           scanStats := { res.1.scanStats with chatsFound := res.2.1.length }
           lastScanTime := env.now }, res.2.1,
         1 + env.dirs.foldl
           (fun n d => n + 1 + (if d.hasChatSessions then 1 + d.files.length else 0)) 0 +
           res.2.2)) := by
  unfold scanAllChatHistories
  rw [discoverAll_spec]
  simp [hprog, hex, scanStatsAfterDiscovery]


theorem discoveredOf_small (dirs : List WorkspaceDirListing) :
    ∀ f ∈ discoveredOf dirs, f.stats.size ≤ MAX_FILE_SIZE_BYTES := by
  induction dirs with
  | nil => simp [discoveredOf]
  | cons d rest ih =>
    intro f hf
    simp only [discoveredOf, List.mem_append] at hf
    rcases hf with hf | hf
    · by_cases h : d.hasChatSessions
      · simp only [h, if_true, List.mem_map] at hf
        obtain ⟨e, he, heq⟩ := hf
        have hk := (List.mem_filter.mp he).2
        simp only [keepEntry, Bool.and_eq_true, decide_eq_true_eq] at hk
        rw [← heq]
        exact hk.2
      · simp [h] at hf
    · exact ih f hf

theorem discoveredOf_paths (dirs : List WorkspaceDirListing) (p : String)
    (hp : p ∈ (discoveredOf dirs).map (·.filePath)) :
    ∃ e ∈ scannedFiles dirs, keepEntry e = true ∧ e.filePath = p := by
  induction dirs with
  | nil => simp [discoveredOf] at hp
  | cons d rest ih =>
    simp only [discoveredOf, List.map_append, List.mem_append] at hp
    rcases hp with hp | hp
    · by_cases h : d.hasChatSessions
      · simp only [h, if_true, List.map_map, List.mem_map] at hp
        obtain ⟨e, he, heq⟩ := hp
        refine ⟨e, ?_, (List.mem_filter.mp he).2, heq⟩
        simp only [scannedFiles, h, if_true, List.mem_append]
        exact Or.inl (List.mem_filter.mp he).1
      · simp [h] at hp
    · obtain ⟨e, he, hk, heq⟩ := ih hp
      refine ⟨e, ?_, hk, heq⟩
      simp only [scannedFiles, List.mem_append]
      exact Or.inr he

theorem oversize_not_discovered (dirs : List WorkspaceDirListing)
    (hnodup : ((scannedFiles dirs).map (·.filePath)).Nodup) :
    ∀ e ∈ oversizeOf dirs, e.filePath ∉ (discoveredOf dirs).map (·.filePath) := by
  intro e he hmem
  obtain ⟨e2, he2, hk, hpe⟩ := discoveredOf_paths dirs _ hmem
  have heS : e ∈ scannedFiles dirs := (List.mem_filter.mp he).1
  have hov : isJsonOversize e = true := (List.mem_filter.mp he).2
  have heq : e2 = e := List.inj_on_of_nodup_map hnodup he2 heS hpe
  subst heq
  simp only [keepEntry, isJsonOversize, Bool.and_eq_true, decide_eq_true_eq] at hk hov
  omega

/-- C2: files above 50 MiB are counted under skipped-large, never enter the
candidate list (so no summary is produced from them), and the scan adds no
identity-to-path entry pointing at them. -/
theorem claim2_size_ceiling (st : ServiceState) (env : ScanEnv)
    (hprog : st.scanInProgress = false) (hex : env.storageExists = true)
    (hnodup : ((scannedFiles env.dirs).map (·.filePath)).Nodup) :
    (scanAllChatHistories st env true).1.scanStats.skippedLarge =
      (oversizeOf env.dirs).length ∧
    (∀ f ∈ (discoverAll env.dirs).1, f.stats.size ≤ MAX_FILE_SIZE_BYTES) ∧
    (∀ e ∈ oversizeOf env.dirs,
      e.filePath ∉ (discoverAll env.dirs).1.map (·.filePath)) ∧
    (∀ id p, mapGet (scanAllChatHistories st env true).1.chatFilePaths id = some p →
      mapGet st.chatFilePaths id = some p ∨
        p ∈ (discoverAll env.dirs).1.map (·.filePath)) := by
  have hbody := scan_force_body st env hprog hex
  refine ⟨?_, ?_, ?_, ?_⟩
  · rw [hbody]
    have h1 := processFold_skippedLarge env (discoveredOf env.dirs)
      (scanStatsAfterDiscovery st env, [], 0)
    simpa [processAll, scanStatsAfterDiscovery] using h1
  · intro f hf
    rw [discoverAll_spec] at hf
    exact discoveredOf_small env.dirs f hf
  · intro e he
    rw [discoverAll_spec]
    exact oversize_not_discovered env.dirs hnodup e he
  · intro id p h
    rw [hbody] at h
    have h2 := processFold_paths env (discoveredOf env.dirs)
      (scanStatsAfterDiscovery st env, [], 0) id p (by exact h)
    rw [discoverAll_spec]
    rcases h2 with h2 | ⟨f, hf, rfl⟩
    · exact Or.inl h2
    · exact Or.inr (List.mem_map_of_mem (·.filePath) hf)


def c2Env : ScanEnv :=
  { storageExists := true,
    dirs := [⟨"w1", true,
      [⟨"big.json", "root/w1/chatSessions/big.json", ⟨MAX_FILE_SIZE_BYTES + 1, 3⟩⟩,
        ⟨"a.json", "root/w1/chatSessions/a.json", ⟨10, 7⟩⟩]⟩],
    parse := fun p => if p = "root/w1/chatSessions/a.json" then some c9Sess else none,
    wsName := fun _ => "W1", now := 100 }

theorem claim2_witness :
    (scanAllChatHistories emptyState c2Env true).1.scanStats.skippedLarge = 1 ∧
    (∀ e ∈ oversizeOf c2Env.dirs,
      e.filePath ∉ (discoverAll c2Env.dirs).1.map (·.filePath)) := by
  have h := claim2_size_ceiling emptyState c2Env rfl rfl (by decide)
  refine ⟨?_, h.2.2.1⟩
  rw [h.1]
  decide

/-! ## Claim C3: deep search -/

theorem mem_insertDesc (x a : DeepSearchResult) (l : List DeepSearchResult) :
    x ∈ insertDesc a l ↔ x = a ∨ x ∈ l := by
  induction l with
  | nil => simp [insertDesc]
  | cons y ys ih =>
    by_cases h : a.totalMatches ≤ y.totalMatches <;> simp [insertDesc, h, ih] <;> tauto

theorem mem_sortDescFold (l acc : List DeepSearchResult) (x : DeepSearchResult) :
    x ∈ l.foldl (fun acc r => insertDesc r acc) acc ↔ x ∈ acc ∨ x ∈ l := by
  induction l generalizing acc with
  | nil => simp
  | cons a t ih =>
    rw [List.foldl_cons, ih]
    simp [mem_insertDesc]
    tauto

theorem mem_sortDesc (l : List DeepSearchResult) (x : DeepSearchResult) :
    x ∈ sortDesc l ↔ x ∈ l := by
  simp [sortDesc, mem_sortDescFold]

theorem pairwise_insertDesc (a : DeepSearchResult) (l : List DeepSearchResult)
    (h : l.Pairwise (fun x y => y.totalMatches ≤ x.totalMatches)) :
    (insertDesc a l).Pairwise (fun x y => y.totalMatches ≤ x.totalMatches) := by
  induction l with
  | nil => simp [insertDesc]
  | cons y ys ih =>
    rcases List.pairwise_cons.mp h with ⟨hy, hys⟩
    by_cases hc : a.totalMatches ≤ y.totalMatches
    · simp only [insertDesc, if_pos hc]
      refine List.pairwise_cons.mpr ⟨?_, ih hys⟩
      intro z hz
      rcases (mem_insertDesc z a ys).mp hz with rfl | hz
      · exact hc
      · exact hy z hz
    · simp only [insertDesc, if_neg hc]
      refine List.pairwise_cons.mpr ⟨?_, h⟩
      intro z hz
      rcases List.mem_cons.mp hz with rfl | hz
      · omega
      · exact le_trans (hy z hz) (by omega)

theorem pairwise_sortDescFold (l acc : List DeepSearchResult)
    (h : acc.Pairwise (fun x y => y.totalMatches ≤ x.totalMatches)) :
    (l.foldl (fun acc r => insertDesc r acc) acc).Pairwise
      (fun x y => y.totalMatches ≤ x.totalMatches) := by
  induction l generalizing acc with
  | nil => exact h
  | cons a t ih => exact ih _ (pairwise_insertDesc a acc h)

theorem pairwise_sortDesc (l : List DeepSearchResult) :
    (sortDesc l).Pairwise (fun x y => y.totalMatches ≤ x.totalMatches) :=
  pairwise_sortDescFold l [] (by simp)

theorem termCountsFold_snd (content : String) (terms : List String)
    (acc : List (String × Nat) × Nat) :
    (terms.foldl
        (fun acc t => (mapSet acc.1 t (countOcc content t), acc.2 + countOcc content t))
        acc).2 =
      acc.2 + (terms.map (fun t => countOcc content t)).sum := by
  induction terms generalizing acc with
  | nil => simp
  | cons t ts ih =>
    rw [List.foldl_cons, ih]
    simp only [List.map_cons, List.sum_cons]
    omega

theorem termCountsFold_get (content : String) (terms : List String)
    (acc : List (String × Nat) × Nat) (t : String) :
    mapGet (terms.foldl
        (fun acc t => (mapSet acc.1 t (countOcc content t), acc.2 + countOcc content t))
        acc).1 t =
      if t ∈ terms then some (countOcc content t) else mapGet acc.1 t := by
  induction terms generalizing acc with
  | nil => simp
  | cons t0 ts ih =>
    rw [List.foldl_cons, ih]
    by_cases h : t ∈ ts
    · simp [h]
    · by_cases h0 : t = t0
      · subst h0
        simp [h, mapGet_mapSet]
      · simp [h, h0, mapGet_mapSet, Ne.symm h0]

theorem termCounts_snd (terms : List String) (content : String) :
    (termCounts terms content).2 = (terms.map (fun t => countOcc content t)).sum := by
  have h := termCountsFold_snd content terms ([], 0)
  simpa [termCounts] using h

theorem termCounts_get (terms : List String) (content : String) (t : String)
    (ht : t ∈ terms) :
    mapGet (termCounts terms content).1 t = some (countOcc content t) := by
  have h := termCountsFold_get content terms ([], 0) t
  simpa [termCounts, ht] using h

/-- The inclusion condition as the specification words it, per mode:
`any` - positive total of per-term counts; `all` - every term occurs;
`exact` - the space-joined phrase occurs. -/
def specSearchCond (terms : List String) (mode : SearchMode) (content : String) : Prop :=
  match mode with
  | SearchMode.any => 0 < (terms.map (fun t => countOcc content t)).sum
  | SearchMode.all => ∀ t ∈ terms, 0 < countOcc content t
  | SearchMode.exact => 0 < countOcc content (String.intercalate " " terms)

theorem searchEntry_filePath (disk : String → Option String) (terms : List String)
    (mode : SearchMode) (cached : List (String × ChatHistory)) (cid fp : String)
    (r : DeepSearchResult) (h : searchEntry disk terms mode cached (cid, fp) = some r) :
    r.filePath = fp := by
  simp only [searchEntry] at h
  split at h
  · simp at h
  · split at h
    · obtain ⟨chat, hg, hf⟩ := Option.map_eq_some'.mp h
      rw [← hf]
    · simp at h

theorem searchEntry_isSome (disk : String → Option String) (terms : List String)
    (mode : SearchMode) (cached : List (String × ChatHistory)) (cid fp : String) :
    (searchEntry disk terms mode cached (cid, fp)).isSome = true ↔
      ∃ content, disk fp = some content ∧ (mapGet cached cid).isSome = true ∧
        specSearchCond terms mode content := by
  cases hd : disk fp with
  | none => simp [searchEntry, hd]
  | some content =>
    cases mode with
    | any =>
      by_cases hok : 0 < (termCounts terms content).2
      · simp [searchEntry, hd, hok, specSearchCond, ← termCounts_snd, Option.isSome_map]
      · simp [searchEntry, hd, hok, specSearchCond, ← termCounts_snd]
    | exact =>
      by_cases hok : 0 < countOcc content (String.intercalate " " terms)
      · simp [searchEntry, hd, hok, specSearchCond, Option.isSome_map]
      · simp [searchEntry, hd, hok, specSearchCond]
    | all =>
      have hall : (terms.all (fun t => 0 < (mapGet (termCounts terms content).1 t).getD 0))
          = true ↔ ∀ t ∈ terms, 0 < countOcc content t := by
        rw [List.all_eq_true]
        constructor
        · intro h t ht
          have h2 := h t ht
          rw [termCounts_get terms content t ht] at h2
          simpa using h2
        · intro h t ht
          rw [termCounts_get terms content t ht]
          simpa using h t ht
      by_cases hok : ∀ t ∈ terms, 0 < countOcc content t
      · have hb : (terms.all (fun t => 0 < (mapGet (termCounts terms content).1 t).getD 0))
            = true := hall.mpr hok
        simp [searchEntry, hd, hb, specSearchCond, hok, Option.isSome_map]
        exact fun _ => hok
      · have hb : ¬((terms.all
            (fun t => 0 < (mapGet (termCounts terms content).1 t).getD 0)) = true) := by
          intro hcon
          exact hok (hall.mp hcon)
        simp only [Bool.not_eq_true] at hb
        simp [searchEntry, hd, hb, specSearchCond, hok]

/-- C3: a file backing an indexed identity is included in `deepSearch`
results exactly when its raw text satisfies the mode condition (`any`:
positive total of case-insensitive per-term counts, `all`: every term
occurs, `exact`: the space-joined phrase occurs), and the result list is
sorted by descending total match count. -/
theorem claim3_deep_search (st : ServiceState) (disk : String → Option String)
    (terms : List String) (mode : SearchMode)
    (hvals : (st.chatFilePaths.map (·.2)).Nodup) :
    (deepSearch st disk terms mode).Pairwise
      (fun a b => b.totalMatches ≤ a.totalMatches) ∧
    (∀ cid fp chat, (cid, fp) ∈ st.chatFilePaths →
      mapGet st.cachedChats cid = some chat →
      ((∃ r ∈ deepSearch st disk terms mode, r.filePath = fp) ↔
        ∃ content, disk fp = some content ∧ specSearchCond terms mode content)) := by
  constructor
  · exact pairwise_sortDesc _
  · intro cid fp chat hmem hchat
    constructor
    · rintro ⟨r, hr, rfl⟩
      simp only [deepSearch, mem_sortDesc] at hr
      obtain ⟨e, he, hre⟩ := List.mem_filterMap.mp hr
      obtain ⟨cid2, fp2⟩ := e
      have hfp2 : r.filePath = fp2 :=
        searchEntry_filePath disk terms mode st.cachedChats cid2 fp2 r hre
      have hmem2 : (cid, fp2) ∈ st.chatFilePaths := hfp2 ▸ hmem
      have hpair := List.inj_on_of_nodup_map hvals he hmem2 rfl
      have hcid : cid2 = cid := congrArg Prod.fst hpair
      subst hcid
      have hs : (searchEntry disk terms mode st.cachedChats (cid2, fp2)).isSome = true := by
        rw [hre]; rfl
      obtain ⟨content, hdk, _, hcond⟩ :=
        (searchEntry_isSome disk terms mode st.cachedChats cid2 fp2).mp hs
      exact ⟨content, hfp2 ▸ hdk, hcond⟩
    · rintro ⟨content, hdk, hcond⟩
      have hs : (searchEntry disk terms mode st.cachedChats (cid, fp)).isSome = true :=
        (searchEntry_isSome disk terms mode st.cachedChats cid fp).mpr
          ⟨content, hdk, by simp [hchat], hcond⟩
      obtain ⟨r, hr⟩ := Option.isSome_iff_exists.mp hs
      refine ⟨r, ?_, searchEntry_filePath disk terms mode st.cachedChats cid fp r hr⟩
      simp only [deepSearch, mem_sortDesc]
      exact List.mem_filterMap.mpr ⟨(cid, fp), hmem, hr⟩

def c3St : ServiceState :=
  { emptyState with
      cachedChats := [("s1", c1Chat)]
      chatFilePaths := [("s1", "p1")] }

def c3Disk : String → Option String :=
  fun p => if p = "p1" then some "Docker stacks use docker daily" else none

theorem claim3_witness :
    ∃ r ∈ deepSearch c3St c3Disk ["docker"] SearchMode.any, r.filePath = "p1" := by
  have h := (claim3_deep_search c3St c3Disk ["docker"] SearchMode.any (by decide)).2
    "s1" "p1" c1Chat (by decide) rfl
  refine h.mpr ⟨"Docker stacks use docker daily", rfl, ?_⟩
  show 0 < ((["docker"] : List String).map
    (fun t => countOcc "Docker stacks use docker daily" t)).sum
  decide

end ChatMgr
